import Mathlib

/-!
Shallow embedding of the client-management data-access layer
(`src/backend/src/models/Client.js`, here `src/unnamed/part_005`) and the
HTTP controller (`src/backend/src/controllers/clientController.js`), over a
purely functional database state.  Timestamps are naturals (seconds);
the SQLite table `clients` is a list of rows plus the AUTOINCREMENT counter.
JavaScript strings are Lean `String`s; JS `undefined` is `Option.none`;
thrown JS errors are `Except.error` carrying the message string, because the
controller classifies errors by substring matching on messages.
-/

namespace CMS

/-- ASCII lower-casing of one character; model of the effect of JS
`toLowerCase` (and of SQLite case folding) on the ASCII range. -/
def asciiLower (c : Char) : Char :=
  if 'A' ≤ c ∧ c ≤ 'Z' then Char.ofNat (c.toNat + 32) else c

/-- ASCII upper-casing of one character; model of JS `toUpperCase`. -/
def asciiUpper (c : Char) : Char :=
  if 'a' ≤ c ∧ c ≤ 'z' then Char.ofNat (c.toNat - 32) else c

/-- Model of JS `String.prototype.toLowerCase` (ASCII range). -/
def lowerStr (s : String) : String := ⟨s.data.map asciiLower⟩

/-- Model of JS `String.prototype.toUpperCase` (ASCII range). -/
def upperStr (s : String) : String := ⟨s.data.map asciiUpper⟩

/-- Model of JS `String.prototype.trim`: drop whitespace at both ends. -/
def jsTrim (s : String) : String :=
  ⟨((s.data.dropWhile Char.isWhitespace).reverse.dropWhile Char.isWhitespace).reverse⟩

/-- `startsWithList n h` holds when `n` begins `h` (used for substring search). -/
def startsWithList : List Char → List Char → Bool
  | [], _ => true
  | _ :: _, [] => false
  | a :: as, b :: bs => a == b && startsWithList as bs

/-- `containsList n h`: the character list `n` occurs contiguously inside `h`. -/
def containsList (n : List Char) : List Char → Bool
  | [] => startsWithList n []
  | h@(_ :: t) => startsWithList n h || containsList n t

/-- Model of JS `String.prototype.includes`: `jsIncludes s sub` is true when
`sub` occurs in `s`.  The controller layer classifies errors with this. -/
def jsIncludes (s sub : String) : Bool := containsList sub.data s.data

/-- `digitVal radix c`: value of `c` as a digit in the given radix, as JS
`parseInt` accepts digits (0-9, then letters in either case). -/
def digitVal (radix : Nat) (c : Char) : Option Nat :=
  if '0' ≤ c ∧ c ≤ '9' then
    let v := c.toNat - 48
    if v < radix then some v else none
  else if 'a' ≤ c ∧ c ≤ 'z' then
    let v := c.toNat - 87
    if v < radix then some v else none
  else if 'A' ≤ c ∧ c ≤ 'Z' then
    let v := c.toNat - 55
    if v < radix then some v else none
  else none

/-- Whether `c` is a digit of the given radix. -/
def isRadixDigit (radix : Nat) (c : Char) : Bool := (digitVal radix c).isSome

/-- Numeric value of a digit list in the given radix. -/
def digitsVal (radix : Nat) (ds : List Char) : Nat :=
  ds.foldl (fun acc c => acc * radix + (digitVal radix c).getD 0) 0

/-- Model of JS `parseInt(s)` with no explicit radix: skip leading
whitespace, read an optional sign, detect a `0x`/`0X` hexadecimal marker,
then take the longest prefix of digits; `none` models `NaN` (no digits). -/
def jsParseInt (s : String) : Option Int :=
  let cs := s.data.dropWhile Char.isWhitespace
  let signAndRest : Int × List Char :=
    match cs with
    | c :: t => if c == '-' then (-1, t) else if c == '+' then (1, t) else (1, cs)
    | [] => (1, [])
  let radixAndRest : Nat × List Char :=
    match signAndRest.2 with
    | a :: b :: t => if a == '0' && (b == 'x' || b == 'X') then (16, t) else (10, signAndRest.2)
    | _ => (10, signAndRest.2)
  let ds := radixAndRest.2.takeWhile (isRadixDigit radixAndRest.1)
  if ds.isEmpty then none
  else some (signAndRest.1 * Int.ofNat (digitsVal radixAndRest.1 ds))

end CMS

namespace CMS

/-! ## Field validation (`Client._validateClientData` and its regex helpers) -/

/-- Characters accepted by the name pattern in the source,
a regex accepting letters, whitespace, hyphen, apostrophe and period.
The apostrophe is written by code point (39). -/
def nameChar (c : Char) : Bool :=
  ('a' ≤ c && c ≤ 'z') || ('A' ≤ c && c ≤ 'Z') || c.isWhitespace ||
    c == '-' || c == Char.ofNat 39 || c == '.'

/-- Model of `Client._isValidEmail`.  The source regex anchors
one-or-more characters that are neither whitespace nor the at-sign, then a
literal at-sign, then one-or-more such characters, a literal dot, and
one-or-more such characters.  Equivalently: no whitespace anywhere, exactly
one at-sign, a non-empty local part, and a dot inside the domain part that
is neither its first nor its last character. -/
def isValidEmail (s : String) : Bool :=
  let cs := s.data
  let lcl := cs.takeWhile (· != '@')
  let dom := (cs.dropWhile (· != '@')).drop 1
  (!cs.any (·.isWhitespace)) && (cs.count '@' == 1) &&
    (!lcl.isEmpty) && (((dom.drop 1).dropLast).contains '.')

/-- Characters accepted by the phone pattern body: digits, whitespace,
hyphen, parentheses, period. -/
def phoneChar (c : Char) : Bool :=
  c.isDigit || c.isWhitespace || c == '-' || c == '(' || c == ')' || c == '.'

/-- Model of `Client._isValidPhone`: an optional leading plus sign, then
10 to 20 characters drawn from `phoneChar`. -/
def isValidPhone (s : String) : Bool :=
  let cs := s.data
  let rest := if cs.head? == some '+' then cs.tail else cs
  decide (10 ≤ rest.length) && decide (rest.length ≤ 20) && rest.all phoneChar

/-- A request payload after `extractClientData`: each of the three fields is
either absent (JS `undefined`) or a string. -/
structure Payload where
  name : Option String
  email : Option String
  phone : Option String
deriving DecidableEq

/-- Output of `Client._validateClientData`.  For `name`/`email`, `none`
models the JS value `undefined` (field absent or trimmed to empty, since
the source stores `value || undefined`).  For `phone`, the outer option
models presence of the key and the inner option models SQL `NULL`. -/
structure Validated where
  name : Option String
  email : Option String
  phone : Option (Option String)
deriving DecidableEq

/-- Name branch of `Client._validateClientData`.  `raw? = none` models an
absent (`undefined`) field. -/
def validateName (raw? : Option String) (requireAll : Bool) : Except String (Option String) :=
  match raw? with
  | some raw =>
    let name := jsTrim raw
    if requireAll && name == "" then .error "Name is required"
    else if name != "" && (decide (name.length < 1) || decide (name.length > 100)) then
      .error "Name must be between 1 and 100 characters"
    else if name != "" && !(name.data.all nameChar) then
      .error "Name contains invalid characters"
    else .ok (if name == "" then none else some name)
  | none => if requireAll then .error "Name is required" else .ok none

/-- Email branch of `Client._validateClientData`: trim and lower-case, then
shape and length checks. -/
def validateEmail (raw? : Option String) (requireAll : Bool) : Except String (Option String) :=
  match raw? with
  | some raw =>
    let email := lowerStr (jsTrim raw)
    if requireAll && email == "" then .error "Email is required"
    else if email != "" && !(isValidEmail email) then .error "Invalid email format"
    else if email != "" && decide (email.length > 100) then
      .error "Email must be less than 100 characters"
    else .ok (if email == "" then none else some email)
  | none => if requireAll then .error "Email is required" else .ok none

/-- Phone branch of `Client._validateClientData`.  The source turns a falsy
provided value (the empty string) into SQL `NULL`, trims otherwise, and
checks length and shape only when the trimmed value is still truthy. -/
def validatePhone (raw? : Option String) : Except String (Option (Option String)) :=
  match raw? with
  | some raw =>
    let phone : Option String := if raw == "" then none else some (jsTrim raw)
    match phone with
    | some p =>
      if p != "" && decide (p.length > 20) then
        .error "Phone number must be less than 20 characters"
      else if p != "" && !(isValidPhone p) then .error "Invalid phone number format"
      else .ok (some (some p))
    | none => .ok (some none)
  | none => .ok none

/-- Model of `Client._validateClientData`: validate the three fields in the
source order, propagating the first error. -/
def validateClientData (data : Payload) (requireAll : Bool) : Except String Validated :=
  match validateName data.name requireAll with
  | .error e => .error e
  | .ok n =>
    match validateEmail data.email requireAll with
    | .error e => .error e
    | .ok em =>
      match validatePhone data.phone with
      | .error e => .error e
      | .ok ph => .ok ⟨n, em, ph⟩

end CMS

namespace CMS

/-! ## Storage model: the `clients` table -/

/-- One row of the `clients` table.  `phone` is nullable; the two
timestamps are naturals (seconds), set by `CURRENT_TIMESTAMP` defaults on
insert and refreshed on update. -/
structure ClientRec where
  id : Nat
  name : String
  email : String
  phone : Option String
  created_at : Nat
  updated_at : Nat
deriving DecidableEq

/-- Database state: the rows in insertion order plus the AUTOINCREMENT
counter (the id the next insert receives). -/
structure DB where
  rows : List ClientRec
  nextId : Nat
deriving DecidableEq

/-- A freshly initialised database: no rows, AUTOINCREMENT starts at 1. -/
def DB.empty : DB := ⟨[], 1⟩

/-- Model of `Client.findById`.  `Client._validateId` rejects a
non-positive id by throwing, and the catch in `findById` turns that throw
into `null`; a positive id is looked up with `WHERE id = ?`.  Ids are
naturals here, so only the zero case of the rejection is representable. -/
def Client.findById (id : Nat) (db : DB) : Option ClientRec :=
  if id == 0 then none
  else db.rows.find? (fun r => r.id == id)

/-- Model of `Client._checkEmailUniqueness`: a row with the same email —
other than the excluded id, when one is given — makes the check throw.
A JS `excludeId` of `0` is falsy, so it disables the exclusion just as
`null` does. -/
def checkEmailUniqueness (email : String) (excludeId : Option Nat) (db : DB) :
    Except String Unit :=
  let hit := db.rows.find? (fun r =>
    r.email == email &&
      (match excludeId with
       | some ex => ex == 0 || r.id != ex
       | none => true))
  match hit with
  | some _ => .error "Email address already exists"
  | none => .ok ()

/-! ## Create -/

/-- The row that the INSERT statement of `Client.create` adds: the next
AUTOINCREMENT id, the validated fields, and both timestamps defaulted to
the current time. -/
def insertedRow (db : DB) (nm em : String) (ph : Option String) (now : Nat) : ClientRec :=
  ⟨db.nextId, nm, em, ph, now, now⟩

/-- The database after the INSERT of `Client.create`. -/
def insertedDB (db : DB) (nm em : String) (ph : Option String) (now : Nat) : DB :=
  ⟨db.rows ++ [insertedRow db nm em ph now], db.nextId + 1⟩

/-- The try-block of `Client.create`: validate with all fields required,
pre-check email uniqueness, insert the row with both timestamps set to the
current time, then re-read it by its generated id.  Inserting a `NULL`
name or email would violate the NOT NULL column constraints, which the
last arm models; validation with `requireAll = true` makes it unreachable. -/
def createBody (data : Payload) (db : DB) (now : Nat) :
    Except String (ClientRec × DB) :=
  match validateClientData data true with
  | .error e => .error e
  | .ok v =>
    match (match v.email with
           | some e => checkEmailUniqueness e none db
           | none => .ok ()) with
    | .error e => .error e
    | .ok _ =>
      match v.name, v.email with
      | some nm, some em =>
        match Client.findById db.nextId (insertedDB db nm em v.phone.join now) with
        | some c => .ok (c, insertedDB db nm em v.phone.join now)
        | none => .error "Failed to retrieve created client"
      | _, _ => .error "NOT NULL constraint failed: clients.name"

/-- The catch-block of `Client.create`: a storage UNIQUE-constraint message
is replaced by the duplicate message; anything else is wrapped. -/
def createCatch (msg : String) : String :=
  if jsIncludes msg "UNIQUE constraint failed" then "Email address already exists"
  else "Failed to create client: " ++ msg

/-- Model of `Client.create`: the try-block with its catch applied to any
error. -/
def Client.create (data : Payload) (db : DB) (now : Nat) :
    Except String (ClientRec × DB) :=
  match createBody data db now with
  | .ok x => .ok x
  | .error m => .error (createCatch m)

/-! ## Update -/

/-- The SET clause of the UPDATE statement of `Client.update`: overwrite
exactly the provided fields and refresh `updated_at` (the source sets it in
the statement and the AFTER UPDATE trigger sets it again, to the same
current time). -/
def applyUpdate (existing : ClientRec) (v : Validated) (now : Nat) : ClientRec :=
  { existing with
      name := v.name.getD existing.name
      email := v.email.getD existing.email
      phone := match v.phone with
               | some p => p
               | none => existing.phone
      updated_at := now }

/-- The database after the UPDATE statement of `Client.update`: the row
with the given id replaced, all other rows and the AUTOINCREMENT counter
untouched. -/
def updatedDB (id : Nat) (existing : ClientRec) (v : Validated) (now : Nat) (db : DB) : DB :=
  ⟨db.rows.map (fun r => if r.id == id then applyUpdate existing v now else r), db.nextId⟩

/-- The try-block of `Client.update`: validate the id, require the record
to exist, validate only the provided fields, re-check uniqueness when the
email is being changed, and apply only the provided fields, refreshing
`updated_at`; with no provided fields the existing record is returned
untouched.  The source re-reads the row after the UPDATE without a null
check, hence the `Option ClientRec` in the result. -/
def updateBody (id : Nat) (data : Payload) (db : DB) (now : Nat) :
    Except String (Option ClientRec × DB) :=
  if id == 0 then .error "Invalid ID: must be a positive integer"
  else
    match Client.findById id db with
    | none => .error "Client not found"
    | some existing =>
      match validateClientData data false with
      | .error e => .error e
      | .ok v =>
        match (match v.email with
               | some e =>
                 if e != existing.email then checkEmailUniqueness e (some id) db
                 else .ok ()
               | none => .ok ()) with
        | .error e => .error e
        | .ok _ =>
          if !(v.name.isSome || v.email.isSome || v.phone.isSome) then
            .ok (some existing, db)
          else
            .ok (Client.findById id (updatedDB id existing v now db),
              updatedDB id existing v now db)

/-- The catch-block of `Client.update`, analogous to the one of create. -/
def updateCatch (msg : String) : String :=
  if jsIncludes msg "UNIQUE constraint failed" then "Email address already exists"
  else "Failed to update client: " ++ msg

/-- Model of `Client.update`. -/
def Client.update (id : Nat) (data : Payload) (db : DB) (now : Nat) :
    Except String (Option ClientRec × DB) :=
  match updateBody id data db now with
  | .ok x => .ok x
  | .error m => .error (updateCatch m)

/-! ## Delete -/

/-- Model of `Client.delete`: validate the id, return `false` when the
record is absent, otherwise remove the row and report whether a row was
affected.  The AUTOINCREMENT counter is untouched, so ids are never
reused. -/
def Client.delete (id : Nat) (db : DB) : Except String (Bool × DB) :=
  if id == 0 then .error "Failed to delete client: Invalid ID: must be a positive integer"
  else
    match Client.findById id db with
    | none => .ok (false, db)
    | some _ =>
      let rows' := db.rows.filter (fun r => !(r.id == id))
      .ok (decide (rows'.length < db.rows.length), ⟨rows', db.nextId⟩)

end CMS

namespace CMS

/-! ## Sorting (model of ORDER BY) -/

/-- Insert a row into a list, before the first element not below it. -/
def insertRow (le : ClientRec → ClientRec → Bool) (x : ClientRec) :
    List ClientRec → List ClientRec
  | [] => [x]
  | y :: t => if le x y then x :: y :: t else y :: insertRow le x t

/-- Insertion sort of rows; the model of SQL ORDER BY (the claims under
study depend only on the multiset of returned rows, not the engine's
actual sort algorithm). -/
def sortRows (le : ClientRec → ClientRec → Bool) : List ClientRec → List ClientRec
  | [] => []
  | x :: t => insertRow le x (sortRows le t)

/-- SQLite ordering on a nullable text column, ascending: NULLs first. -/
def leOptStr : Option String → Option String → Bool
  | none, _ => true
  | some _, none => false
  | some a, some b => decide (a ≤ b)

/-- Ascending comparison of two rows on a sort field. -/
def fieldLe (sortBy : String) (a b : ClientRec) : Bool :=
  if sortBy == "id" then decide (a.id ≤ b.id)
  else if sortBy == "name" then decide (a.name ≤ b.name)
  else if sortBy == "email" then decide (a.email ≤ b.email)
  else if sortBy == "phone" then leOptStr a.phone b.phone
  else if sortBy == "updated_at" then decide (a.updated_at ≤ b.updated_at)
  else decide (a.created_at ≤ b.created_at)

/-! ## List/search (`Client.findAll`) -/

/-- The allow-list of `Client._validateSortField`. -/
def allowedSortFields : List String :=
  ["id", "name", "email", "phone", "created_at", "updated_at"]

/-- Model of `Client._validateSortField`: a field outside the allow-list
falls back to the default. -/
def validateSortField (field : String) : String :=
  if allowedSortFields.contains field then field else "created_at"

/-- Arguments of `Client.findAll` after the controller's extraction.  Page
and limit are naturals where `0` stands for an absent or non-numeric value
(JS `parseInt(x) || default` semantics); empty strings stand for absent
string options. -/
structure FindAllOptions where
  page : Nat
  limit : Nat
  search : String
  sortBy : String
  order : String
deriving DecidableEq

/-- The object `Client.findAll` resolves with. -/
structure FindAllResult where
  clients : List ClientRec
  total : Nat
  page : Nat
  limit : Nat
  totalPages : Nat
  hasNext : Bool
  hasPrev : Bool
deriving DecidableEq

/-- The WHERE clause of `findAll`: the search term occurs, ignoring ASCII
case, inside the name or inside the email (model of
`name LIKE ? OR email LIKE ?` with pattern percent-term-percent, for terms
without LIKE metacharacters). -/
def matchesSearch (search : String) (r : ClientRec) : Bool :=
  containsList (lowerStr search).data (lowerStr r.name).data ||
    containsList (lowerStr search).data (lowerStr r.email).data

/-- The rows selected by the WHERE clause of `findAll` (after trimming the
search term; an empty term means no WHERE clause).  The COUNT query and
the page query of the source share this clause, which this definition
makes into one shared term. -/
def findAllFiltered (search : String) (db : DB) : List ClientRec :=
  if jsTrim search == "" then db.rows
  else db.rows.filter (matchesSearch (jsTrim search))

/-- Model of `Client.findAll`: clamp page and limit, trim the search term,
resolve the sort field and direction, count the matches, and return the
slice of the sorted matches at offset `(page - 1) * limit`.
`(total + limit - 1) / limit` is the Nat form of `Math.ceil(total / limit)`. -/
def Client.findAll (opts : FindAllOptions) (db : DB) : FindAllResult :=
  let page := max 1 opts.page
  let limit := min 100 (max 1 (if opts.limit == 0 then 10 else opts.limit))
  let sortBy := validateSortField (if opts.sortBy == "" then "created_at" else opts.sortBy)
  let asc := upperStr (if opts.order == "" then "DESC" else opts.order) == "ASC"
  let offset := (page - 1) * limit
  let filtered := findAllFiltered opts.search db
  let total := filtered.length
  let totalPages := (total + limit - 1) / limit
  let sorted := sortRows (fun a b => if asc then fieldLe sortBy a b else fieldLe sortBy b a) filtered
  { clients := (sorted.drop offset).take limit
    total := total
    page := page
    limit := limit
    totalPages := totalPages
    hasNext := decide (page < totalPages)
    hasPrev := decide (1 < page) }

/-! ## Statistics (`Client.getStats`) -/

/-- The object `Client.getStats` resolves with. -/
structure Stats where
  total : Nat
  recentlyAdded : Nat
  oldestCreated : Option Nat
  newestCreated : Option Nat
deriving DecidableEq

/-- Seven days in seconds, the trailing window of the `recentlyAdded`
query. -/
def sevenDays : Nat := 7 * 24 * 60 * 60

/-- Model of `Client.getStats`: a full count, a count of rows created in
the trailing 7-day window, and the creation times of the first row under
ascending and under descending creation-time order. -/
def Client.getStats (db : DB) (now : Nat) : Stats :=
  let sortedAsc := sortRows (fun a b => decide (a.created_at ≤ b.created_at)) db.rows
  let sortedDesc := sortRows (fun a b => decide (b.created_at ≤ a.created_at)) db.rows
  { total := db.rows.length
    recentlyAdded := (db.rows.filter (fun r => decide (now - sevenDays ≤ r.created_at))).length
    oldestCreated := sortedAsc.head?.map (·.created_at)
    newestCreated := sortedDesc.head?.map (·.created_at) }

end CMS

namespace CMS

/-! ## Controller layer (`clientController.js`) -/

/-- Model of `validateIdParameter` (and of `Client._validateId`, which is
textually the same): parse with JS `parseInt` and reject `NaN` and
non-positive values. -/
def validateIdParameter (id : String) : Except String Nat :=
  match jsParseInt id with
  | none => .error "Invalid ID: must be a positive integer"
  | some n => if n ≤ 0 then .error "Invalid ID: must be a positive integer" else .ok n.toNat

/-- Outcome of the single-record GET endpoint: a 200 with the row, or an
error status with its envelope code. -/
inductive GetByIdResult where
  | success (client : ClientRec)
  | failure (status : Nat) (code : String)
deriving DecidableEq

/-- Model of the controller `getClientById`: an id that fails validation
throws a message containing the Invalid-ID text, which the catch maps to
400 VALIDATION_ERROR; a valid id with no row is 404 NOT_FOUND; otherwise
the row is returned with 200. -/
def getClientById (idStr : String) (db : DB) : GetByIdResult :=
  match validateIdParameter idStr with
  | .error msg =>
    if jsIncludes msg "Invalid ID" then .failure 400 "VALIDATION_ERROR"
    else .failure 500 "INTERNAL_ERROR"
  | .ok cid =>
    match Client.findById cid db with
    | none => .failure 404 "NOT_FOUND"
    | some c => .success c

/-- The error classification chain of the controller `createClient`,
applied to the caught message. -/
def classifyCreateError (msg : String) : Nat × String :=
  if jsIncludes msg "required" || jsIncludes msg "Invalid" || jsIncludes msg "must be" then
    (400, "VALIDATION_ERROR")
  else if jsIncludes msg "already exists" then (409, "DUPLICATE_EMAIL")
  else (500, "INTERNAL_ERROR")

/-- The error classification chain of the controller `updateClient`. -/
def classifyUpdateError (msg : String) : Nat × String :=
  if jsIncludes msg "Invalid ID" then (400, "VALIDATION_ERROR")
  else if jsIncludes msg "not found" then (404, "NOT_FOUND")
  else if jsIncludes msg "Invalid" || jsIncludes msg "must be" then (400, "VALIDATION_ERROR")
  else if jsIncludes msg "already exists" then (409, "DUPLICATE_EMAIL")
  else (500, "INTERNAL_ERROR")

/-- Model of `validateRequiredFields` on one field: a field is missing when
it is absent, falsy, or trims to the empty string. -/
def fieldMissing (v : Option String) : Bool :=
  match v with
  | none => true
  | some s => s == "" || jsTrim s == ""

/-- Outcome of the POST endpoint: a 201 with the created row, or an error
status with its envelope code. -/
inductive CreateResult where
  | created (client : ClientRec)
  | failure (status : Nat) (code : String)
deriving DecidableEq

/-- Model of the controller `createClient`: check the required fields
(throwing a Missing-required-fields message), call the model, and classify
any caught message; on success respond 201 with the row.  The second
component is the database after the request. -/
def createClient (body : Payload) (db : DB) (now : Nat) : CreateResult × DB :=
  let missing := (if fieldMissing body.name then ["name"] else []) ++
    (if fieldMissing body.email then ["email"] else [])
  if !missing.isEmpty then
    let sc := classifyCreateError ("Missing required fields: " ++ String.intercalate ", " missing)
    (.failure sc.1 sc.2, db)
  else
    match Client.create body db now with
    | .ok (c, db') => (.created c, db')
    | .error msg =>
      let sc := classifyCreateError msg
      (.failure sc.1 sc.2, db)

end CMS

namespace CMS

/-! ## Lemmas about the sort model -/

theorem length_insertRow (le : ClientRec → ClientRec → Bool) (x : ClientRec)
    (l : List ClientRec) : (insertRow le x l).length = l.length + 1 := by
  induction l with
  | nil => rfl
  | cons y t ih =>
    simp only [insertRow]
    split
    · simp
    · simp [ih]

theorem length_sortRows (le : ClientRec → ClientRec → Bool) (l : List ClientRec) :
    (sortRows le l).length = l.length := by
  induction l with
  | nil => rfl
  | cons x t ih => simp [sortRows, length_insertRow, ih]

theorem mem_insertRow {le : ClientRec → ClientRec → Bool} {x a : ClientRec}
    {l : List ClientRec} : a ∈ insertRow le x l ↔ a = x ∨ a ∈ l := by
  induction l with
  | nil => simp [insertRow]
  | cons y t ih =>
    simp only [insertRow]
    split
    · simp
    · simp only [List.mem_cons, ih]
      tauto

theorem mem_sortRows {le : ClientRec → ClientRec → Bool} {a : ClientRec}
    {l : List ClientRec} : a ∈ sortRows le l ↔ a ∈ l := by
  induction l with
  | nil => simp [sortRows]
  | cons x t ih => simp [sortRows, mem_insertRow, ih]

theorem pairwise_insertRow {le : ClientRec → ClientRec → Bool}
    (htot : ∀ a b, le a b = true ∨ le b a = true)
    (htrans : ∀ a b c, le a b = true → le b c = true → le a c = true)
    {l : List ClientRec} {x : ClientRec}
    (hl : l.Pairwise (fun a b => le a b = true)) :
    (insertRow le x l).Pairwise (fun a b => le a b = true) := by
  induction l with
  | nil => simp [insertRow]
  | cons y t ih =>
    rcases List.pairwise_cons.mp hl with ⟨hy, ht⟩
    simp only [insertRow]
    split
    · rename_i hxy
      refine List.pairwise_cons.mpr ⟨?_, hl⟩
      intro b hb
      rcases List.mem_cons.mp hb with rfl | hbt
      · exact hxy
      · exact htrans _ _ _ hxy (hy b hbt)
    · rename_i hxy
      have hyx : le y x = true := by
        rcases htot x y with h | h
        · exact absurd h hxy
        · exact h
      refine List.pairwise_cons.mpr ⟨?_, ih ht⟩
      intro b hb
      rcases mem_insertRow.mp hb with rfl | hbt
      · exact hyx
      · exact hy b hbt

theorem pairwise_sortRows {le : ClientRec → ClientRec → Bool}
    (htot : ∀ a b, le a b = true ∨ le b a = true)
    (htrans : ∀ a b c, le a b = true → le b c = true → le a c = true)
    (l : List ClientRec) :
    (sortRows le l).Pairwise (fun a b => le a b = true) := by
  induction l with
  | nil => simp [sortRows]
  | cons x t ih => exact pairwise_insertRow htot htrans ih

/-- The first row of the sorted list belongs to the original list and is a
lower bound for it under the comparator. -/
theorem head_sortRows {le : ClientRec → ClientRec → Bool}
    (htot : ∀ a b, le a b = true ∨ le b a = true)
    (htrans : ∀ a b c, le a b = true → le b c = true → le a c = true)
    {l : List ClientRec} {h : ClientRec}
    (hh : (sortRows le l).head? = some h) :
    h ∈ l ∧ ∀ a ∈ l, a = h ∨ le h a = true := by
  rcases hs : sortRows le l with _ | ⟨h', t⟩
  · rw [hs] at hh; cases hh
  · rw [hs] at hh
    cases hh
    have hmem : h ∈ l := mem_sortRows.mp (by rw [hs]; exact List.mem_cons_self _ _)
    have hpw := @pairwise_sortRows le htot htrans l
    rw [hs] at hpw
    rcases List.pairwise_cons.mp hpw with ⟨hb, _⟩
    refine ⟨hmem, ?_⟩
    intro a ha
    have : a ∈ sortRows le l := mem_sortRows.mpr ha
    rw [hs] at this
    rcases List.mem_cons.mp this with rfl | hat
    · exact Or.inl rfl
    · exact Or.inr (hb a hat)

end CMS

namespace CMS

/-! ## Lemmas about validation -/

theorem validateName_ok_eq {raw : String} {ra : Bool} {v : Option String}
    (h : validateName (some raw) ra = .ok v) :
    v = if jsTrim raw = "" then none else some (jsTrim raw) := by
  simp only [validateName] at h
  split at h
  · exact Except.noConfusion h
  · split at h
    · exact Except.noConfusion h
    · split at h
      · exact Except.noConfusion h
      · cases h
        simp [beq_iff_eq]

theorem validateEmail_ok_eq {raw : String} {ra : Bool} {v : Option String}
    (h : validateEmail (some raw) ra = .ok v) :
    v = if lowerStr (jsTrim raw) = "" then none else some (lowerStr (jsTrim raw)) := by
  simp only [validateEmail] at h
  split at h
  · exact Except.noConfusion h
  · split at h
    · exact Except.noConfusion h
    · split at h
      · exact Except.noConfusion h
      · cases h
        simp [beq_iff_eq]

theorem validateName_some_ne {raw? : Option String} {ra : Bool} {nm : String}
    (h : validateName raw? ra = .ok (some nm)) : nm ≠ "" := by
  match raw? with
  | none => cases ra <;> simp [validateName] at h
  | some raw =>
    have heq := validateName_ok_eq h
    split at heq
    · exact Option.noConfusion heq
    · rename_i hne
      cases heq
      exact hne

theorem validateEmail_some {raw? : Option String} {ra : Bool} {em : String}
    (h : validateEmail raw? ra = .ok (some em)) :
    em ≠ "" ∧ ∃ raw, raw? = some raw ∧ em = lowerStr (jsTrim raw) := by
  match raw? with
  | none => cases ra <;> simp [validateEmail] at h
  | some raw =>
    have heq := validateEmail_ok_eq h
    split at heq
    · exact Option.noConfusion heq
    · rename_i hne
      cases heq
      exact ⟨hne, raw, rfl, rfl⟩

/-- With all fields required, a successful name validation yields a
provided name. -/
theorem validateName_true {raw? : Option String} {v : Option String}
    (h : validateName raw? true = .ok v) : ∃ nm, v = some nm := by
  match raw? with
  | none => simp [validateName] at h
  | some raw =>
    have heq := validateName_ok_eq h
    by_cases hz : jsTrim raw = ""
    · exfalso
      simp [validateName, hz] at h
    · rw [heq, if_neg hz]
      exact ⟨_, rfl⟩

theorem validateEmail_true {raw? : Option String} {v : Option String}
    (h : validateEmail raw? true = .ok v) : ∃ em, v = some em := by
  match raw? with
  | none => simp [validateEmail] at h
  | some raw =>
    have heq := validateEmail_ok_eq h
    by_cases hz : lowerStr (jsTrim raw) = ""
    · exfalso
      simp [validateEmail, hz] at h
    · rw [heq, if_neg hz]
      exact ⟨_, rfl⟩

theorem validateClientData_ok {data : Payload} {ra : Bool} {v : Validated}
    (h : validateClientData data ra = .ok v) :
    validateName data.name ra = .ok v.name ∧
      validateEmail data.email ra = .ok v.email ∧
      validatePhone data.phone = .ok v.phone := by
  unfold validateClientData at h
  rcases hn : validateName data.name ra with e | n <;> rw [hn] at h
  · exact Except.noConfusion h
  rcases he : validateEmail data.email ra with e | em <;> rw [he] at h
  · exact Except.noConfusion h
  rcases hp : validatePhone data.phone with e | ph <;> rw [hp] at h
  · exact Except.noConfusion h
  cases h
  refine ⟨?_, ?_, ?_⟩ <;> simp [hn, he, hp]

end CMS

namespace CMS

/-! ## Characterizations of the model operations -/

theorem create_eq_body {data : Payload} {db : DB} {now : Nat} {x : ClientRec × DB}
    (h : Client.create data db now = .ok x) : createBody data db now = .ok x := by
  unfold Client.create at h
  split at h
  · rename_i heq
    cases h
    exact heq
  · exact Except.noConfusion h

theorem createBody_ok {data : Payload} {db : DB} {now : Nat} {r : ClientRec} {db' : DB}
    (h : createBody data db now = .ok (r, db')) :
    ∃ v nm em, validateClientData data true = .ok v ∧ v.name = some nm ∧ v.email = some em ∧
      checkEmailUniqueness em none db = .ok () ∧
      db' = insertedDB db nm em v.phone.join now ∧
      Client.findById db.nextId db' = some r := by
  unfold createBody at h
  split at h
  · exact Except.noConfusion h
  · rename_i v hv
    split at h
    · exact Except.noConfusion h
    · rename_i u hu
      split at h
      · rename_i nm em hnm hem
        split at h
        · rename_i c hf
          cases h
          refine ⟨v, nm, em, hv, hnm, hem, ?_, rfl, hf⟩
          rw [hem] at hu
          cases u
          exact hu
        · exact Except.noConfusion h
      · exact Except.noConfusion h

theorem update_eq_body {id : Nat} {data : Payload} {db : DB} {now : Nat}
    {x : Option ClientRec × DB}
    (h : Client.update id data db now = .ok x) : updateBody id data db now = .ok x := by
  unfold Client.update at h
  split at h
  · rename_i heq
    cases h
    exact heq
  · exact Except.noConfusion h

theorem updateBody_ok {id : Nat} {data : Payload} {db : DB} {now : Nat}
    {x : Option ClientRec × DB}
    (h : updateBody id data db now = .ok x) :
    ∃ existing v, Client.findById id db = some existing ∧
      validateClientData data false = .ok v ∧
      ((v.name = none ∧ v.email = none ∧ v.phone = none ∧ x = (some existing, db)) ∨
        (x.2 = updatedDB id existing v now db ∧ x.1 = Client.findById id x.2)) := by
  unfold updateBody at h
  split at h
  · exact Except.noConfusion h
  · split at h
    · exact Except.noConfusion h
    · rename_i existing hex
      split at h
      · exact Except.noConfusion h
      · rename_i v hv
        split at h
        · exact Except.noConfusion h
        · rename_i u hu
          split at h
          · rename_i hempty
            cases h
            refine ⟨existing, v, hex, hv, Or.inl ⟨?_, ?_, ?_, rfl⟩⟩
            all_goals
              simp only [Bool.not_eq_true', Bool.or_eq_false_iff] at hempty
              cases hn : v.name <;> cases he : v.email <;> cases hp : v.phone <;>
                simp_all [Option.isSome]
          · cases h
            exact ⟨existing, v, hex, hv, Or.inr ⟨rfl, rfl⟩⟩

end CMS

namespace CMS

/-! ## Reachable database states and the master invariant -/

theorem findById_mem {id : Nat} {db : DB} {r : ClientRec}
    (h : Client.findById id db = some r) : r ∈ db.rows ∧ r.id = id := by
  unfold Client.findById at h
  split at h
  · exact Option.noConfusion h
  · have hmem := List.mem_of_find?_eq_some h
    have hp := List.find?_some h
    simp only [beq_iff_eq] at hp
    exact ⟨hmem, hp⟩

theorem delete_ok {id : Nat} {db : DB} {b : Bool} {db' : DB}
    (h : Client.delete id db = .ok (b, db')) :
    db' = db ∨ (db'.rows = db.rows.filter (fun r => !(r.id == id)) ∧ db'.nextId = db.nextId) := by
  unfold Client.delete at h
  split at h
  · exact Except.noConfusion h
  · split at h
    · cases h
      exact Or.inl rfl
    · cases h
      exact Or.inr ⟨rfl, rfl⟩

/-- The reachable database states: any sequence of successful create,
update and delete operations starting from the fresh database, under a
non-decreasing clock (each operation runs at a time at least as late as
every earlier one). -/
inductive Reach : DB → Nat → Prop
  | init : Reach DB.empty 0
  | create {db : DB} {t now : Nat} {data : Payload} {r : ClientRec} {db' : DB} :
      Reach db t → t ≤ now → Client.create data db now = .ok (r, db') → Reach db' now
  | update {db : DB} {t now id : Nat} {data : Payload} {oc : Option ClientRec} {db' : DB} :
      Reach db t → t ≤ now → Client.update id data db now = .ok (oc, db') → Reach db' now
  | delete {db : DB} {t id : Nat} {b : Bool} {db' : DB} :
      Reach db t → Client.delete id db = .ok (b, db') → Reach db' t

/-- The inductive invariant of the table: a positive AUTOINCREMENT
counter, and every row with a positive id below the counter, timestamps
no later than the clock with `created_at ≤ updated_at`, and non-empty
name and email. -/
def DBInv (db : DB) (t : Nat) : Prop :=
  0 < db.nextId ∧
    ∀ r ∈ db.rows, 0 < r.id ∧ r.id < db.nextId ∧ r.created_at ≤ r.updated_at ∧
      r.updated_at ≤ t ∧ r.name ≠ "" ∧ r.email ≠ ""

theorem reach_inv {db : DB} {t : Nat} (h : Reach db t) : DBInv db t := by
  induction h with
  | init =>
    refine ⟨Nat.one_pos, ?_⟩
    intro r hr
    exact absurd hr (List.not_mem_nil r)
  | create hre hle hop ih =>
    rename_i db t now data r db'
    obtain ⟨v, nm, em, hv, hvn, hve, _, hdb', _⟩ := createBody_ok (create_eq_body hop)
    obtain ⟨hn, he, _⟩ := validateClientData_ok hv
    rw [hvn] at hn
    rw [hve] at he
    have hnm : nm ≠ "" := validateName_some_ne hn
    have hem : em ≠ "" := (validateEmail_some he).1
    subst hdb'
    refine ⟨Nat.succ_pos _, ?_⟩
    intro row hrow
    rcases List.mem_append.mp hrow with hold | hnew
    · obtain ⟨h1, h2, h3, h4, h5, h6⟩ := ih.2 row hold
      exact ⟨h1, Nat.lt_succ_of_lt h2, h3, Nat.le_trans h4 hle, h5, h6⟩
    · rcases List.mem_singleton.mp hnew with rfl
      exact ⟨ih.1, Nat.lt_succ_self _, Nat.le_refl _, Nat.le_refl _, hnm, hem⟩
  | update hre hle hop ih =>
    rename_i db t now id data oc db'
    obtain ⟨existing, v, hex, hv, hcases⟩ := updateBody_ok (update_eq_body hop)
    obtain ⟨hn, he, _⟩ := validateClientData_ok hv
    rcases hcases with ⟨_, _, _, hx⟩ | ⟨hdb', _⟩
    · have hdb' : db' = db := congrArg Prod.snd hx
      subst hdb'
      refine ⟨ih.1, ?_⟩
      intro row hrow
      obtain ⟨h1, h2, h3, h4, h5, h6⟩ := ih.2 row hrow
      exact ⟨h1, h2, h3, Nat.le_trans h4 hle, h5, h6⟩
    · have hdb' : db' = updatedDB id existing v now db := hdb'
      subst hdb'
      obtain ⟨hexmem, hexid⟩ := findById_mem hex
      obtain ⟨e1, e2, e3, e4, e5, e6⟩ := ih.2 existing hexmem
      refine ⟨ih.1, ?_⟩
      intro row hrow
      unfold updatedDB at hrow
      simp only [List.mem_map] at hrow
      obtain ⟨orig, horig, hrow⟩ := hrow
      obtain ⟨h1, h2, h3, h4, h5, h6⟩ := ih.2 orig horig
      by_cases hid : (orig.id == id) = true
      · rw [if_pos hid] at hrow
        subst hrow
        unfold applyUpdate
        refine ⟨e1, e2, Nat.le_trans e3 (Nat.le_trans e4 hle), Nat.le_refl _, ?_, ?_⟩
        · cases hvn : v.name with
          | none => simpa using e5
          | some nm =>
            rw [hvn] at hn
            simpa using validateName_some_ne hn
        · cases hve : v.email with
          | none => simpa using e6
          | some em =>
            rw [hve] at he
            simpa using (validateEmail_some he).1
      · rw [if_neg hid] at hrow
        subst hrow
        exact ⟨h1, h2, h3, Nat.le_trans h4 hle, h5, h6⟩
  | delete hre hop ih =>
    rcases delete_ok hop with rfl | ⟨hrows, hnext⟩
    · exact ih
    · refine ⟨hnext ▸ ih.1, ?_⟩
      intro row hrow
      rw [hrows] at hrow
      have hmem := List.mem_of_mem_filter hrow
      obtain ⟨h1, h2, h3, h4, h5, h6⟩ := ih.2 row hmem
      exact ⟨h1, hnext ▸ h2, h3, h4, h5, h6⟩

end CMS

namespace CMS

/-! ## Further helper lemmas -/

theorem findById_ne_zero {id : Nat} {db : DB} {r : ClientRec}
    (h : Client.findById id db = some r) : (id == 0) = false := by
  unfold Client.findById at h
  split at h
  · exact Option.noConfusion h
  · rename_i hne
    simp only [Bool.not_eq_true] at hne
    exact hne

/-- An update whose validated field set is empty returns the existing
record and leaves the database untouched. -/
theorem update_noop {id : Nat} {data : Payload} {db : DB} {now : Nat} {row : ClientRec}
    (hex : Client.findById id db = some row)
    (hv : validateClientData data false = .ok ⟨none, none, none⟩) :
    Client.update id data db now = .ok (some row, db) := by
  have hid : (id == 0) = false := findById_ne_zero hex
  unfold Client.update updateBody
  rw [hid, hex, hv]
  simp

/-- After the INSERT of a create, re-reading the generated id returns the
inserted row, provided every pre-existing id is below the AUTOINCREMENT
counter. -/
theorem findById_insertedDB {db : DB} {t : Nat} (inv : DBInv db t)
    (nm em : String) (ph : Option String) (now : Nat) :
    Client.findById db.nextId (insertedDB db nm em ph now) =
      some (insertedRow db nm em ph now) := by
  unfold Client.findById insertedDB
  have h0 : (db.nextId == 0) = false := by
    simp only [beq_eq_false_iff_ne, ne_eq]
    exact Nat.pos_iff_ne_zero.mp inv.1
  rw [h0]
  simp only [Bool.false_eq_true, if_false, List.find?_append]
  have hnone : db.rows.find? (fun r => r.id == db.nextId) = none := by
    rw [List.find?_eq_none]
    intro r hr
    simp only [beq_iff_eq]
    exact Nat.ne_of_lt ((inv.2 r hr).2.1)
  rw [hnone]
  simp [insertedRow]

/-- A collision on the pre-checked email makes `checkEmailUniqueness`
throw (no exclusion). -/
theorem checkEmailUniqueness_hit {em : String} {db : DB}
    (h : ∃ r ∈ db.rows, r.email = em) :
    checkEmailUniqueness em none db = .error "Email address already exists" := by
  unfold checkEmailUniqueness
  obtain ⟨r, hr, hem⟩ := h
  have : (db.rows.find? (fun r => r.email == em && true)).isSome := by
    rw [List.find?_isSome]
    exact ⟨r, hr, by simp [hem]⟩
  rcases hf : db.rows.find? (fun r => r.email == em && true) with _ | hit
  · rw [hf] at this
    exact Bool.noConfusion this
  · rw [hf]

/-- A collision on the pre-checked email with some other record makes
`checkEmailUniqueness` with an exclusion throw. -/
theorem checkEmailUniqueness_hit_excl {em : String} {db : DB} {id : Nat}
    (h : ∃ r ∈ db.rows, r.id ≠ id ∧ r.email = em) :
    checkEmailUniqueness em (some id) db = .error "Email address already exists" := by
  unfold checkEmailUniqueness
  obtain ⟨r, hr, hne, hem⟩ := h
  have : (db.rows.find? (fun r => r.email == em && (id == 0 || r.id != id))).isSome := by
    rw [List.find?_isSome]
    exact ⟨r, hr, by simp [hem, hne]⟩
  rcases hf : db.rows.find? (fun r => r.email == em && (id == 0 || r.id != id)) with _ | hit
  · rw [hf] at this
    exact Bool.noConfusion this
  · rw [hf]

/-- A create whose validated email collides with an existing record fails
with the wrapped duplicate message. -/
theorem create_duplicate {data : Payload} {db : DB} {now : Nat} {v : Validated} {em : String}
    (hv : validateClientData data true = .ok v) (hve : v.email = some em)
    (hcol : ∃ r ∈ db.rows, r.email = em) :
    Client.create data db now = .error "Failed to create client: Email address already exists" := by
  unfold Client.create createBody
  simp only [hv, hve, checkEmailUniqueness_hit hcol]
  rfl

/-- An update that changes the email onto the email of another record
fails with the wrapped duplicate message. -/
theorem update_duplicate {id : Nat} {data : Payload} {db : DB} {now : Nat}
    {existing : ClientRec} {v : Validated} {em : String}
    (hex : Client.findById id db = some existing)
    (hv : validateClientData data false = .ok v) (hve : v.email = some em)
    (hchg : em ≠ existing.email)
    (hcol : ∃ r ∈ db.rows, r.id ≠ id ∧ r.email = em) :
    Client.update id data db now = .error "Failed to update client: Email address already exists" := by
  have hid : (id == 0) = false := findById_ne_zero hex
  have hne : (em != existing.email) = true := by simp [bne_iff_ne, hchg]
  unfold Client.update updateBody
  simp only [hid, hex, hv, hve, Bool.false_eq_true, if_false, hne, if_true,
    checkEmailUniqueness_hit_excl hcol]
  rfl

end CMS

namespace CMS

/-! ## Concrete fixtures used by the witnesses -/

/-- A concrete creation payload with padding and upper-case in the email. -/
def wPayload : Payload := ⟨some " John Doe ", some "JOHN@EX.com", some "555-123-4567"⟩

/-- The row `Client.create wPayload` inserts into the fresh database at
time 5. -/
def wRow : ClientRec := ⟨1, "John Doe", "john@ex.com", some "555-123-4567", 5, 5⟩

/-- The database after that create. -/
def wDB : DB := ⟨[wRow], 2⟩

theorem wDB_reach : Reach wDB 5 :=
  @Reach.create DB.empty 0 5 wPayload wRow wDB Reach.init (Nat.zero_le 5) rfl

/-- A second row, and the database holding both rows. -/
def wRow2 : ClientRec := ⟨2, "Ann Lee", "ann@ex.com", none, 6, 6⟩

def wDB2 : DB := ⟨[wRow, wRow2], 3⟩

theorem wDB2_reach : Reach wDB2 6 :=
  @Reach.create wDB 5 6 ⟨some "Ann Lee", some "ann@ex.com", none⟩ wRow2 wDB2
    wDB_reach (by decide) rfl

end CMS

namespace CMS

/-! ## Claim theorems -/

/-- C4: for every reachable database state, every record satisfies
`created_at ≤ updated_at`: insertion sets both timestamps to the same
value, and every successful update refreshes `updated_at` to the current
(monotone) time, so no operation can make `updated_at` precede
`created_at`. -/
theorem C4_timestamps_ordered {db : DB} {t : Nat} (h : Reach db t) :
    ∀ r ∈ db.rows, r.created_at ≤ r.updated_at :=
  fun r hr => ((reach_inv h).2 r hr).2.2.1

/-- Witness for C4 on a concrete reachable two-row database. -/
theorem C4_timestamps_ordered_witness :
    wRow.created_at ≤ wRow.updated_at ∧ wRow2.created_at ≤ wRow2.updated_at :=
  ⟨C4_timestamps_ordered wDB2_reach wRow (by decide),
    C4_timestamps_ordered wDB2_reach wRow2 (by decide)⟩

/-- C5: updating an existing record with zero provided fields succeeds as
a no-op: it returns the current record (same id, all fields including
`updated_at` unchanged) rather than an error, and the database — hence the
record's presence — is untouched. -/
theorem C5_empty_update_noop {id now : Nat} {db : DB} {row : ClientRec}
    (hex : Client.findById id db = some row) :
    Client.update id ⟨none, none, none⟩ db now = .ok (some row, db) :=
  update_noop hex rfl

/-- Witness for C5 on the concrete one-row database. -/
theorem C5_empty_update_noop_witness :
    Client.findById 1 wDB = some wRow ∧
      Client.update 1 ⟨none, none, none⟩ wDB 7 = .ok (some wRow, wDB) :=
  ⟨rfl, C5_empty_update_noop rfl⟩

/-- C9 (implicit): a name or email in an update payload that trims to the
empty string is silently treated as not provided — its validation succeeds
with the field dropped, an update carrying only such fields is a no-op on
the stored record — and consequently no sequence of create/update/delete
operations reaches a state storing an empty name or email. -/
theorem C9_empty_fields_dropped :
    (∀ raw, jsTrim raw = "" → validateName (some raw) false = .ok none) ∧
    (∀ raw, jsTrim raw = "" → validateEmail (some raw) false = .ok none) ∧
    (∀ (id : Nat) (s1 s2 : String) (db : DB) (now : Nat) (row : ClientRec),
      jsTrim s1 = "" → jsTrim s2 = "" → Client.findById id db = some row →
      Client.update id ⟨some s1, some s2, none⟩ db now = .ok (some row, db)) ∧
    (∀ (db : DB) (t : Nat), Reach db t → ∀ r ∈ db.rows, r.name ≠ "" ∧ r.email ≠ "") := by
  have hname : ∀ raw, jsTrim raw = "" → validateName (some raw) false = .ok none := by
    intro raw hz
    simp [validateName, hz]
  have hemail : ∀ raw, jsTrim raw = "" → validateEmail (some raw) false = .ok none := by
    intro raw hz
    simp [validateEmail, hz, lowerStr]
  refine ⟨hname, hemail, ?_, ?_⟩
  · intro id s1 s2 db now row h1 h2 hex
    apply update_noop hex
    unfold validateClientData
    simp only [hname s1 h1, hemail s2 h2, validatePhone]
  · intro db t h r hr
    exact ⟨((reach_inv h).2 r hr).2.2.2.2.1, ((reach_inv h).2 r hr).2.2.2.2.2⟩

/-- Witness for C9 on concrete whitespace payloads and the concrete
reachable database. -/
theorem C9_empty_fields_dropped_witness :
    validateName (some "  ") false = .ok none ∧
    validateEmail (some " ") false = .ok none ∧
    Client.update 1 ⟨some "  ", some " ", none⟩ wDB 8 = .ok (some wRow, wDB) ∧
    (wRow.name ≠ "" ∧ wRow.email ≠ "") :=
  ⟨C9_empty_fields_dropped.1 "  " (by decide),
    C9_empty_fields_dropped.2.1 " " (by decide),
    C9_empty_fields_dropped.2.2.1 1 "  " " " wDB 8 wRow (by decide) (by decide) rfl,
    C9_empty_fields_dropped.2.2.2 wDB 5 wDB_reach wRow (by decide)⟩

end CMS

namespace CMS

theorem validateIdParameter_fail {s : String} (h : jsParseInt s = none) :
    validateIdParameter s = .error "Invalid ID: must be a positive integer" := by
  unfold validateIdParameter
  rw [h]

theorem validateIdParameter_nonpos {s : String} {k : Int}
    (h : jsParseInt s = some k) (hk : k ≤ 0) :
    validateIdParameter s = .error "Invalid ID: must be a positive integer" := by
  unfold validateIdParameter
  rw [h]
  simp [hk]

theorem validateIdParameter_ok {s : String} {n : Nat}
    (h : jsParseInt s = some (n : Int)) (hn : 0 < n) :
    validateIdParameter s = .ok n := by
  have hle : ¬((n : Int) ≤ 0) := by
    simp only [not_le]
    exact_mod_cast hn
  unfold validateIdParameter
  rw [h]
  simp [hle]

theorem getClientById_parse_fail {s : String} {db : DB} (h : jsParseInt s = none) :
    getClientById s db = .failure 400 "VALIDATION_ERROR" := by
  unfold getClientById
  rw [validateIdParameter_fail h]
  rfl

theorem getClientById_parse_nonpos {s : String} {k : Int} {db : DB}
    (h : jsParseInt s = some k) (hk : k ≤ 0) :
    getClientById s db = .failure 400 "VALIDATION_ERROR" := by
  unfold getClientById
  rw [validateIdParameter_nonpos h hk]
  rfl

theorem getClientById_parse_pos {s : String} {n : Nat} {db : DB}
    (h : jsParseInt s = some (n : Int)) (hn : 0 < n) :
    getClientById s db =
      (match Client.findById n db with
       | some c => .success c
       | none => .failure 404 "NOT_FOUND") := by
  unfold getClientById
  rw [validateIdParameter_ok h hn]
  rcases hf : Client.findById n db with _ | c <;> simp [hf]

/-- C3: an identifier string that does not parse to a positive integer is
rejected with 400 VALIDATION_ERROR, while a well-formed positive id with
no matching record is 404 NOT_FOUND — the two conditions are distinct and
the latter never produces 400. -/
theorem C3_invalid_id_distinct_from_not_found :
    (∀ (s : String) (db : DB), jsParseInt s = none →
      getClientById s db = .failure 400 "VALIDATION_ERROR") ∧
    (∀ (s : String) (k : Int) (db : DB), jsParseInt s = some k → k ≤ 0 →
      getClientById s db = .failure 400 "VALIDATION_ERROR") ∧
    (∀ (s : String) (n : Nat) (db : DB), jsParseInt s = some (n : Int) → 0 < n →
      (∀ r ∈ db.rows, r.id ≠ n) →
      getClientById s db = .failure 404 "NOT_FOUND") := by
  refine ⟨fun s db h => getClientById_parse_fail h,
    fun s k db h hk => getClientById_parse_nonpos h hk, ?_⟩
  intro s n db h hn habs
  rw [getClientById_parse_pos h hn]
  have hfind : Client.findById n db = none := by
    unfold Client.findById
    have h0 : (n == 0) = false := by
      simp only [beq_eq_false_iff_ne, ne_eq]
      exact Nat.pos_iff_ne_zero.mp hn
    rw [h0]
    simp only [Bool.false_eq_true, if_false, List.find?_eq_none]
    intro r hr
    simp only [beq_iff_eq]
    exact habs r hr
  rw [hfind]

/-- Witness for C3: the spec scenarios `GET /clients/abc` (400) and
`GET /clients/999999` (404) on the concrete one-row database. -/
theorem C3_invalid_id_distinct_from_not_found_witness :
    getClientById "abc" wDB = .failure 400 "VALIDATION_ERROR" ∧
    getClientById "999999" wDB = .failure 404 "NOT_FOUND" :=
  ⟨C3_invalid_id_distinct_from_not_found.1 "abc" wDB (by decide),
    C3_invalid_id_distinct_from_not_found.2.2 "999999" 999999 wDB (by decide) (by decide)
      (by decide)⟩

/-- C10 (implicit): identifier validation follows JS parseInt prefix
semantics — a string whose leading characters parse to a positive integer
(such as 12abc) is dispatched as that id, yielding 200 or 404 by
existence, and the 400 invalid-identifier result occurs exactly when the
string has no numeric value or a non-positive one. -/
theorem C10_parseInt_prefix_semantics :
    jsParseInt "12abc" = some 12 ∧
    (∀ (s : String) (n : Nat) (db : DB), jsParseInt s = some (n : Int) → 0 < n →
      getClientById s db =
        (match Client.findById n db with
         | some c => .success c
         | none => .failure 404 "NOT_FOUND")) ∧
    (∀ (s : String) (db : DB),
      getClientById s db = .failure 400 "VALIDATION_ERROR" ↔
        jsParseInt s = none ∨ ∃ k, jsParseInt s = some k ∧ k ≤ 0) := by
  refine ⟨by decide, fun s n db h hn => getClientById_parse_pos h hn, ?_⟩
  intro s db
  constructor
  · intro hres
    rcases hp : jsParseInt s with _ | k
    · exact Or.inl rfl
    · by_cases hk : k ≤ 0
      · exact Or.inr ⟨k, rfl, hk⟩
      · exfalso
        have hkpos : 0 < k.toNat := by omega
        have hcast : ((k.toNat : Nat) : Int) = k := by omega
        rw [getClientById_parse_pos (hcast ▸ hp) hkpos] at hres
        rcases hf : Client.findById k.toNat db with _ | c <;> rw [hf] at hres <;>
          simp at hres
  · intro hcase
    rcases hcase with hnone | ⟨k, hk, hle⟩
    · exact getClientById_parse_fail hnone
    · exact getClientById_parse_nonpos hk hle

/-- Witness for C10: `12abc` is dispatched as id 12 — found in a database
holding id 12, not-found in one that lacks it. -/
theorem C10_parseInt_prefix_semantics_witness :
    getClientById "12abc" ⟨[⟨12, "Kim Lee", "kim@ex.com", none, 3, 3⟩], 13⟩ =
      .success ⟨12, "Kim Lee", "kim@ex.com", none, 3, 3⟩ ∧
    getClientById "12abc" wDB = .failure 404 "NOT_FOUND" := by
  constructor
  · rw [C10_parseInt_prefix_semantics.2.1 "12abc" 12
      ⟨[⟨12, "Kim Lee", "kim@ex.com", none, 3, 3⟩], 13⟩ (by decide) (by decide)]
    rfl
  · rw [C10_parseInt_prefix_semantics.2.1 "12abc" 12 wDB (by decide) (by decide)]
    rfl

end CMS

namespace CMS

/-- C2: an email collision — whether detected by the application pre-check
on create or update, or reported by the storage UNIQUE constraint — always
surfaces as the duplicate error kind that the controller maps to 409
DUPLICATE_EMAIL, never to a generic 500; and after a successful create,
a second create whose normalized email equals the stored one fails as a
duplicate, so the pair yields exactly one success and one duplicate. -/
theorem C2_duplicate_email_maps_to_409 :
    (∀ (data : Payload) (db : DB) (now : Nat) (v : Validated) (em : String),
      validateClientData data true = .ok v → v.email = some em →
      (∃ r ∈ db.rows, r.email = em) →
      ∃ msg, Client.create data db now = .error msg ∧
        classifyCreateError msg = (409, "DUPLICATE_EMAIL")) ∧
    (∀ (id : Nat) (data : Payload) (db : DB) (now : Nat) (existing : ClientRec)
        (v : Validated) (em : String),
      Client.findById id db = some existing →
      validateClientData data false = .ok v → v.email = some em → em ≠ existing.email →
      (∃ r ∈ db.rows, r.id ≠ id ∧ r.email = em) →
      ∃ msg, Client.update id data db now = .error msg ∧
        classifyUpdateError msg = (409, "DUPLICATE_EMAIL")) ∧
    (classifyCreateError (createCatch "UNIQUE constraint failed: clients.email") =
        (409, "DUPLICATE_EMAIL") ∧
      classifyUpdateError (updateCatch "UNIQUE constraint failed: clients.email") =
        (409, "DUPLICATE_EMAIL")) ∧
    (∀ (d1 d2 : Payload) (db0 : DB) (n1 n2 : Nat) (r1 : ClientRec) (db1 : DB)
        (v2 : Validated) (em : String),
      Client.create d1 db0 n1 = .ok (r1, db1) →
      validateClientData d2 true = .ok v2 → v2.email = some em → em = r1.email →
      ∃ msg, Client.create d2 db1 n2 = .error msg ∧
        classifyCreateError msg = (409, "DUPLICATE_EMAIL")) := by
  have hc : ∀ (data : Payload) (db : DB) (now : Nat) (v : Validated) (em : String),
      validateClientData data true = .ok v → v.email = some em →
      (∃ r ∈ db.rows, r.email = em) →
      ∃ msg, Client.create data db now = .error msg ∧
        classifyCreateError msg = (409, "DUPLICATE_EMAIL") := by
    intro data db now v em hv hve hcol
    exact ⟨_, create_duplicate hv hve hcol, by decide⟩
  refine ⟨hc, ?_, ⟨by decide, by decide⟩, ?_⟩
  · intro id data db now existing v em hex hv hve hchg hcol
    exact ⟨_, update_duplicate hex hv hve hchg hcol, by decide⟩
  · intro d1 d2 db0 n1 n2 r1 db1 v2 em hcr hv2 hve2 hem
    obtain ⟨v, nm, em1, _, _, _, _, _, hfind⟩ := createBody_ok (create_eq_body hcr)
    exact hc d2 db1 n2 v2 em hv2 hve2 ⟨r1, (findById_mem hfind).1, hem.symm⟩

/-- Witness for C2: a colliding create against the one-row database and a
colliding update against the two-row database, both classified 409. -/
theorem C2_duplicate_email_maps_to_409_witness :
    (∃ msg, Client.create ⟨some "Jane Roe", some " JOHN@EX.com", none⟩ wDB 9 = .error msg ∧
      classifyCreateError msg = (409, "DUPLICATE_EMAIL")) ∧
    (∃ msg, Client.update 2 ⟨none, some "john@ex.com", none⟩ wDB2 9 = .error msg ∧
      classifyUpdateError msg = (409, "DUPLICATE_EMAIL")) :=
  ⟨C2_duplicate_email_maps_to_409.1 ⟨some "Jane Roe", some " JOHN@EX.com", none⟩ wDB 9
      ⟨some "Jane Roe", some "john@ex.com", none⟩ "john@ex.com" rfl rfl
      ⟨wRow, by decide, rfl⟩,
    C2_duplicate_email_maps_to_409.2.1 2 ⟨none, some "john@ex.com", none⟩ wDB2 9
      wRow2 ⟨none, some "john@ex.com", none⟩ "john@ex.com" rfl rfl rfl (by decide)
      ⟨wRow, by decide, by decide, rfl⟩⟩

/-- C7: from any reachable state, a successful create returns the freshly
inserted record: a positive generated id (the AUTOINCREMENT counter),
`created_at` equal to `updated_at`, and the request email trimmed of
surrounding whitespace and lower-cased. -/
theorem C7_create_normalizes {db : DB} {t : Nat} {data : Payload} {now : Nat}
    {r : ClientRec} {db' : DB}
    (hre : Reach db t) (hop : Client.create data db now = .ok (r, db')) :
    r.id = db.nextId ∧ 0 < r.id ∧ r.created_at = r.updated_at ∧
      (∀ raw, data.email = some raw → r.email = lowerStr (jsTrim raw)) := by
  obtain ⟨v, nm, em, hv, hvn, hve, _, hdb', hfind⟩ := createBody_ok (create_eq_body hop)
  have inv := reach_inv hre
  subst hdb'
  rw [findById_insertedDB inv nm em v.phone.join now] at hfind
  cases hfind
  refine ⟨rfl, inv.1, rfl, ?_⟩
  intro raw hraw
  have he := (validateClientData_ok hv).2.1
  rw [hve, hraw] at he
  obtain ⟨_, ⟨raw2, hr2, hr3⟩⟩ := validateEmail_some he
  cases hr2
  exact hr3

/-- Witness for C7: creating `wPayload` in the fresh database at time 5. -/
theorem C7_create_normalizes_witness :
    0 < wRow.id ∧ wRow.created_at = wRow.updated_at ∧
      wRow.email = lowerStr (jsTrim "JOHN@EX.com") :=
  ⟨(@C7_create_normalizes DB.empty 0 wPayload 5 wRow wDB Reach.init rfl).2.1,
    (@C7_create_normalizes DB.empty 0 wPayload 5 wRow wDB Reach.init rfl).2.2.1,
    (@C7_create_normalizes DB.empty 0 wPayload 5 wRow wDB Reach.init rfl).2.2.2
      "JOHN@EX.com" rfl⟩

/-- C8: a sort field outside the allow-list silently falls back to the
default creation-time field — `findAll` returns exactly what it returns
for `created_at`, never an error. -/
theorem C8_invalid_sortBy_falls_back (opts : FindAllOptions) (db : DB)
    (h : allowedSortFields.contains opts.sortBy = false) :
    Client.findAll opts db =
      Client.findAll ⟨opts.page, opts.limit, opts.search, "created_at", opts.order⟩ db := by
  obtain ⟨p, l, s, sb, ord⟩ := opts
  simp only at h ⊢
  have key : validateSortField (if (sb == "") = true then "created_at" else sb) =
      "created_at" := by
    by_cases hsb : sb = ""
    · simp [hsb]
      decide
    · have hne : (sb == "") = false := by simp [hsb]
      rw [hne]
      simp only [Bool.false_eq_true, if_false]
      unfold validateSortField
      rw [h]
      simp
  have key2 : validateSortField "created_at" = "created_at" := by decide
  unfold Client.findAll
  simp only [key, ite_self, key2]

/-- Witness for C8: the unrecognized field `foo` yields the same result as
`created_at` on the concrete database. -/
theorem C8_invalid_sortBy_falls_back_witness :
    allowedSortFields.contains "foo" = false ∧
    Client.findAll ⟨1, 10, "", "foo", ""⟩ wDB2 =
      Client.findAll ⟨1, 10, "", "created_at", ""⟩ wDB2 :=
  ⟨by decide, C8_invalid_sortBy_falls_back ⟨1, 10, "", "foo", ""⟩ wDB2 (by decide)⟩

end CMS

namespace CMS

/-- C6: for page at least 1 and limit in 1..100, `findAll` echoes page and
limit, counts the matches with the same WHERE clause used for the page
slice, computes `totalPages` as the rounding-up of total over limit (the
two inequality conjuncts pin that down), slices at offset
`(page - 1) * limit`, and on any page beyond the last returns an empty
list together with the same valid total and metadata instead of an
error. -/
theorem C6_pagination_consistent (db : DB) (p l : Nat) (search sortBy ord : String)
    (res : FindAllResult)
    (hp : 1 ≤ p) (hl1 : 1 ≤ l) (hl2 : l ≤ 100)
    (hres : Client.findAll ⟨p, l, search, sortBy, ord⟩ db = res) :
    res.page = p ∧ res.limit = l ∧
    res.total = (findAllFiltered search db).length ∧
    res.totalPages = (res.total + l - 1) / l ∧
    res.total ≤ res.totalPages * l ∧
    (0 < res.total → (res.totalPages - 1) * l < res.total) ∧
    res.clients.length = min l (res.total - (p - 1) * l) ∧
    (res.totalPages < p → res.clients = []) ∧
    res.hasNext = decide (p < res.totalPages) ∧
    res.hasPrev = decide (1 < p) := by
  subst hres
  have hl0 : (l == 0) = false := by
    simp only [beq_eq_false_iff_ne, ne_eq]
    omega
  have hpage : max 1 p = p := Nat.max_eq_right hp
  have hlim : min 100 (max 1 (if (l == 0) = true then 10 else l)) = l := by
    rw [hl0]
    simp only [Bool.false_eq_true, if_false]
    rw [Nat.max_eq_right hl1, Nat.min_eq_right hl2]
  simp only [Client.findAll, hpage, hlim]
  have hkey : (findAllFiltered search db).length ≤
      (((findAllFiltered search db).length + l - 1) / l) * l := by
    have hdm := Nat.div_add_mod ((findAllFiltered search db).length + l - 1) l
    have hmod : ((findAllFiltered search db).length + l - 1) % l < l :=
      Nat.mod_lt _ (by omega)
    rw [Nat.mul_comm] at hdm
    set m := (((findAllFiltered search db).length + l - 1) / l) * l with hm
    omega
  refine ⟨trivial, trivial, trivial, trivial, hkey, ?_, ?_, ?_, trivial, trivial⟩
  · intro hpos
    have hdm := Nat.div_add_mod ((findAllFiltered search db).length + l - 1) l
    have hmod : ((findAllFiltered search db).length + l - 1) % l < l :=
      Nat.mod_lt _ (by omega)
    rw [Nat.mul_comm] at hdm
    rw [Nat.sub_mul, Nat.one_mul]
    set m := (((findAllFiltered search db).length + l - 1) / l) * l with hm
    omega
  · simp only [List.length_take, List.length_drop, length_sortRows]
  · intro hqp
    have h2 : (((findAllFiltered search db).length + l - 1) / l) * l ≤ (p - 1) * l :=
      Nat.mul_le_mul_right l (by omega)
    have h3 : (sortRows (fun a b =>
        if (upperStr (if (ord == "") = true then "DESC" else ord) == "ASC") = true then
          fieldLe (validateSortField (if (sortBy == "") = true then "created_at" else sortBy)) a b
        else
          fieldLe (validateSortField (if (sortBy == "") = true then "created_at" else sortBy)) b a)
        (findAllFiltered search db)).length ≤ (p - 1) * l := by
      rw [length_sortRows]
      omega
    rw [List.drop_eq_nil_of_le h3, List.take_nil]

/-- Witness for C6: page 5 of the two-row database with limit 10 is past
the last page, so the list is empty while total and totalPages stay
valid. -/
theorem C6_pagination_consistent_witness :
    (Client.findAll ⟨5, 10, "", "", ""⟩ wDB2).clients = [] ∧
    (Client.findAll ⟨5, 10, "", "", ""⟩ wDB2).total = 2 ∧
    (Client.findAll ⟨5, 10, "", "", ""⟩ wDB2).totalPages = 1 :=
  ⟨(C6_pagination_consistent wDB2 5 10 "" "" "" (Client.findAll ⟨5, 10, "", "", ""⟩ wDB2)
      (by decide) (by decide) (by decide) rfl).2.2.2.2.2.2.2.1 (by decide),
    by decide, by decide⟩

end CMS

namespace CMS

/-- The two ORDER BY comparators of `getStats` are total and transitive,
so the heads of the sorted lists are the extremal creation times: what the
statistics operation in the source actually aggregates besides the two
counts. -/
theorem getStats_extremal (db : DB) (now : Nat) :
    (db.rows = [] → (Client.getStats db now).oldestCreated = none ∧
      (Client.getStats db now).newestCreated = none) ∧
    (db.rows ≠ [] → ∃ a b, (Client.getStats db now).oldestCreated = some a ∧
      (Client.getStats db now).newestCreated = some b ∧
      (∃ r ∈ db.rows, r.created_at = a) ∧ (∃ r ∈ db.rows, r.created_at = b) ∧
      ∀ r ∈ db.rows, a ≤ r.created_at ∧ r.created_at ≤ b) := by
  constructor
  · intro hnil
    simp [Client.getStats, hnil, sortRows]
  · intro hne
    have htotA : ∀ a b : ClientRec,
        (decide (a.created_at ≤ b.created_at)) = true ∨
        (decide (b.created_at ≤ a.created_at)) = true := by
      intro a b
      rcases Nat.le_total a.created_at b.created_at with h | h
      · exact Or.inl (by simpa using h)
      · exact Or.inr (by simpa using h)
    have htrA : ∀ a b c : ClientRec,
        (decide (a.created_at ≤ b.created_at)) = true →
        (decide (b.created_at ≤ c.created_at)) = true →
        (decide (a.created_at ≤ c.created_at)) = true := by
      intro a b c h1 h2
      simp only [decide_eq_true_eq] at h1 h2 ⊢
      omega
    have htotB : ∀ a b : ClientRec,
        (decide (b.created_at ≤ a.created_at)) = true ∨
        (decide (a.created_at ≤ b.created_at)) = true := fun a b => (htotA a b).symm
    have htrB : ∀ a b c : ClientRec,
        (decide (b.created_at ≤ a.created_at)) = true →
        (decide (c.created_at ≤ b.created_at)) = true →
        (decide (c.created_at ≤ a.created_at)) = true := by
      intro a b c h1 h2
      simp only [decide_eq_true_eq] at h1 h2 ⊢
      omega
    rcases hsa : (sortRows (fun a b => decide (a.created_at ≤ b.created_at)) db.rows).head?
      with _ | ha
    · exfalso
      rw [List.head?_eq_none_iff] at hsa
      have := length_sortRows (fun a b => decide (a.created_at ≤ b.created_at)) db.rows
      rw [hsa] at this
      cases hrows : db.rows with
      | nil => exact hne hrows
      | cons x t => rw [hrows] at this; simp at this
    · rcases hsb : (sortRows (fun a b => decide (b.created_at ≤ a.created_at)) db.rows).head?
        with _ | hb
      · exfalso
        rw [List.head?_eq_none_iff] at hsb
        have := length_sortRows (fun a b => decide (b.created_at ≤ a.created_at)) db.rows
        rw [hsb] at this
        cases hrows : db.rows with
        | nil => exact hne hrows
        | cons x t => rw [hrows] at this; simp at this
      · obtain ⟨hamem, hamin⟩ := head_sortRows htotA htrA hsa
        obtain ⟨hbmem, hbmax⟩ := head_sortRows htotB htrB hsb
        refine ⟨ha.created_at, hb.created_at, ?_, ?_, ⟨ha, hamem, rfl⟩, ⟨hb, hbmem, rfl⟩, ?_⟩
        · simp [Client.getStats, hsa]
        · simp [Client.getStats, hsb]
        · intro r hr
          constructor
          · rcases hamin r hr with rfl | hle
            · exact Nat.le_refl _
            · simpa using hle
          · rcases hbmax r hr with rfl | hle
            · exact Nat.le_refl _
            · simpa using hle

/-- Following the words of the spec and of the route documentation, which
the source model does not compute: the number of records that have a
phone. -/
def totalWithPhone (db : DB) : Nat := (db.rows.filter (fun r => r.phone.isSome)).length

/-- C1: the statistics result carries no with/without-phone counts.  On
two one-row tables that differ only in whether the row has a phone,
`getStats` returns the very same value although the promised with-phone
count differs, so the output cannot determine such counts; what the
operation does return at this input is the full-table total, the 7-day
trailing-window count and the extremal creation times. -/
theorem C1_stats_lack_phone_counts :
    Client.getStats ⟨[⟨1, "John Doe", "john@ex.com", some "555-123-4567", 100, 100⟩], 2⟩ 100 =
      Client.getStats ⟨[⟨1, "John Doe", "john@ex.com", none, 100, 100⟩], 2⟩ 100 ∧
    totalWithPhone ⟨[⟨1, "John Doe", "john@ex.com", some "555-123-4567", 100, 100⟩], 2⟩ ≠
      totalWithPhone ⟨[⟨1, "John Doe", "john@ex.com", none, 100, 100⟩], 2⟩ ∧
    Client.getStats ⟨[⟨1, "John Doe", "john@ex.com", some "555-123-4567", 100, 100⟩], 2⟩ 100 =
      ⟨1, 1, some 100, some 100⟩ :=
  ⟨rfl, by decide, rfl⟩

end CMS
